import Mathlib

/-!
Verification of the parse-scoring engine of the l95-parsing repository.

Python sets are modelled as `Finset`, Python strings as `String` (constituency
labels) or `List Char` (dependency labels, which get lower-cased and split),
Python floats as `ℚ` (every arithmetic operation performed by the scoring code
is a ratio of small integer counts), and Python exceptions as an `Except`
value.
-/

/-- Python exceptions raised by the scoring code. -/
inductive PyError where
  | valueError (msg : String)
  | zeroDivisionError
deriving DecidableEq, Repr

/-- `EvalScore` named tuple from `src/task/eval/score.py`: precision, recall, F1. -/
structure EvalScore where
  precision : ℚ
  recall' : ℚ
  f1 : ℚ
deriving DecidableEq, Repr

deriving instance DecidableEq for Except

/-- `EvalScore.from_sets` from `src/src/task/eval/score.py` (current revision):
precision, recall and F1 over a predicted and a gold set, with guarded divisions. -/
def EvalScore.from_sets {α : Type} [DecidableEq α] (pred_set gold_set : Finset α) :
    EvalScore :=
  let correct : ℚ := ((pred_set ∩ gold_set).card : ℚ)
  let pred : ℚ := (pred_set.card : ℚ)
  let gold : ℚ := (gold_set.card : ℚ)
  let p : ℚ := if pred ≠ 0 then correct / pred else 0
  let r : ℚ := if gold ≠ 0 then correct / gold else 0
  let f : ℚ := if p + r > 0 then (2 * p * r) / (p + r) else 0
  ⟨p, r, f⟩

/-- `Accuracy.from_sets` from `src/src/task/eval/score.py`: raises `ValueError` on a
size mismatch; the division `correct / pred` raises `ZeroDivisionError` when
`pred = 0` (Python `int / int`), which the source does not guard. -/
def Accuracy.from_sets {α : Type} [DecidableEq α] (pred_set gold_set : Finset α) :
    Except PyError ℚ :=
  let correct := (pred_set ∩ gold_set).card
  let pred := pred_set.card
  let gold := gold_set.card
  if pred ≠ gold then
    .error (.valueError "Both sets must be the same length to compute accuracy correctly.")
  else if pred = 0 then
    .error .zeroDivisionError
  else
    .ok ((correct : ℚ) / (pred : ℚ))

/-- `EvalScore.from_sets` from `src/task/eval/score.py` (duplicated legacy revision):
note `gold = len(pred_set)` in the source, and all three divisions are unguarded, so
`pred = 0` or `p + r = 0` raises `ZeroDivisionError`. -/
def TaskEvalScore.from_sets {α : Type} [DecidableEq α] (pred_set gold_set : Finset α) :
    Except PyError EvalScore :=
  let correct : ℚ := ((pred_set ∩ gold_set).card : ℚ)
  let pred : ℚ := (pred_set.card : ℚ)
  let gold : ℚ := (pred_set.card : ℚ)
  if pred = 0 then .error .zeroDivisionError
  else
    let p : ℚ := correct / pred
    if gold = 0 then .error .zeroDivisionError
    else
      let r : ℚ := correct / gold
      if p + r = 0 then .error .zeroDivisionError
      else .ok ⟨p, r, (2 * p * r) / (p + r)⟩

/-- `EvalScore.from_sets` from `src/task/eval.py` (the other duplicated legacy
revision); its body is textually identical to the one in `src/task/eval/score.py`. -/
def TaskEval.from_sets {α : Type} [DecidableEq α] (pred_set gold_set : Finset α) :
    Except PyError EvalScore :=
  let correct : ℚ := ((pred_set ∩ gold_set).card : ℚ)
  let pred : ℚ := (pred_set.card : ℚ)
  let gold : ℚ := (pred_set.card : ℚ)
  if pred = 0 then .error .zeroDivisionError
  else
    let p : ℚ := correct / pred
    if gold = 0 then .error .zeroDivisionError
    else
      let r : ℚ := correct / gold
      if p + r = 0 then .error .zeroDivisionError
      else .ok ⟨p, r, (2 * p * r) / (p + r)⟩

/-! ### Constituency trees and spans (`src/src/task/eval/constituency.py`) -/

/-- An NLTK `Tree`: a labelled node whose ordered children are either terminal
strings (`Sum.inl`) or subtrees (`Sum.inr`). -/
inductive PTree where
  | node (label : String) (children : List (String ⊕ PTree))

mutual

/-- NLTK `Tree.height`: `1` plus the maximum child height, where a terminal string
child has height `1` and a childless node has height `1`. -/
def PTree.height : PTree → ℕ
  | .node _ children => 1 + childrenMaxHeight children

/-- Maximum height over a child list (the `max_child_height` accumulator). -/
def childrenMaxHeight : List (String ⊕ PTree) → ℕ
  | [] => 0
  | .inl _ :: rest => max 1 (childrenMaxHeight rest)
  | .inr t :: rest => max (PTree.height t) (childrenMaxHeight rest)

end

mutual

/-- NLTK `Tree.leaves`: the terminal strings of the tree in left-to-right order. -/
def PTree.leaves : PTree → List String
  | .node _ children => childrenLeaves children

/-- Leaves of a child list, in order. -/
def childrenLeaves : List (String ⊕ PTree) → List String
  | [] => []
  | .inl s :: rest => s :: childrenLeaves rest
  | .inr t :: rest => PTree.leaves t ++ childrenLeaves rest

end

/-- A constituent span: start offset, end offset and an optional label (`none`
models the arity-2 unlabelled Python tuples, `some` the arity-3 labelled ones). -/
abbrev CSpan := ℕ × ℕ × Option String

mutual

/-- `extract_constituents` from `src/src/task/eval/constituency.py`: a node of
height `> 1` contributes the span of its leaves and the loop over its children
recurses into subtree children. -/
def extract_constituents (tree : PTree) (start_index : ℕ) (labelled : Bool) :
    Finset CSpan :=
  match tree with
  | .node label children =>
    if PTree.height (.node label children) > 1 then
      insert
        (start_index, start_index + (PTree.leaves (.node label children)).length,
          if labelled then some label else none)
        (extractChildren children start_index labelled)
    else ∅

/-- The `for subtree in tree` loop of `extract_constituents`: a string child is
skipped (`continue`) without advancing `start_index`; a subtree child is recursed
into and only then is `start_index` advanced by that child's leaf count. -/
def extractChildren (children : List (String ⊕ PTree)) (start_index : ℕ)
    (labelled : Bool) : Finset CSpan :=
  match children with
  | [] => ∅
  | .inl _ :: rest => extractChildren rest start_index labelled
  | .inr t :: rest =>
      extract_constituents t start_index labelled ∪
        extractChildren rest (start_index + (PTree.leaves t).length) labelled

end

mutual

/-- Modelled from the claim's wording: the span set whose offsets count every leaf
preceding a node inside the tree, string leaf children included.  Used only to be
compared against `extract_constituents`. -/
def claimConstituentSpans (tree : PTree) (start_index : ℕ) (labelled : Bool) :
    Finset CSpan :=
  match tree with
  | .node label children =>
    if PTree.height (.node label children) > 1 then
      insert
        (start_index, start_index + (PTree.leaves (.node label children)).length,
          if labelled then some label else none)
        (claimChildSpans children start_index labelled)
    else ∅

/-- Companion of `claimConstituentSpans` on child lists: the running offset advances
by `1` over a string leaf child and by the leaf count over a subtree child. -/
def claimChildSpans (children : List (String ⊕ PTree)) (start_index : ℕ)
    (labelled : Bool) : Finset CSpan :=
  match children with
  | [] => ∅
  | .inl _ :: rest => claimChildSpans rest (start_index + 1) labelled
  | .inr t :: rest =>
      claimConstituentSpans t start_index labelled ∪
        claimChildSpans rest (start_index + (PTree.leaves t).length) labelled

end

/-- Whether a child of a node is a terminal string. -/
def isStrChild : String ⊕ PTree → Bool
  | .inl _ => true
  | .inr _ => false

mutual

/-- Well-formed parse trees: at every node, no string leaf child precedes a subtree
child, and a node that has children covers at least one leaf.  Trees read from
bracketed parse files satisfy this (strings occur only under preterminals). -/
def PTree.separated : PTree → Bool
  | .node _ children =>
    separatedChildren children && (children.isEmpty || !(childrenLeaves children).isEmpty)

/-- Companion of `PTree.separated` on child lists. -/
def separatedChildren : List (String ⊕ PTree) → Bool
  | [] => true
  | .inl _ :: rest => rest.all isStrChild
  | .inr t :: rest => PTree.separated t && separatedChildren rest

end

/-- The crossing test inside `cross_count`, on the first two components of a span
(the label, when present, is ignored, as by the Python `*_` destructuring). -/
def spanCrossesSpan (u g : CSpan) : Bool :=
  (decide (u.1 < g.1) && decide (u.2.1 > g.1) && decide (u.2.1 < g.2.1)) ||
    (decide (u.1 > g.1) && decide (u.1 < g.2.1) && decide (u.2.1 > g.2.1))

/-- `cross_count` from `src/src/task/eval/constituency.py`: each span of
`pred_spans` without an exact counterpart in `gold_spans` counts one cross when the
scan of `gold_spans` finds a span it crosses (the `break` makes the loop contribute
at most one per predicted span, independently of iteration order). -/
def cross_count (gold_spans pred_spans : Finset CSpan) : ℕ :=
  let unmatched_spans := pred_spans \ (gold_spans ∩ pred_spans)
  (unmatched_spans.filter (fun u => ∃ g ∈ gold_spans, spanCrossesSpan u g = true)).card

/-! ### Dependency-relation evaluation (`src/src/task/eval/dep_rel.py`) -/

/-- Python `str.lower` on an ASCII label, with the string modelled as `List Char`. -/
def pyLower (s : List Char) : List Char := s.map Char.toLower

/-- Python `str.split(sep)` for a one-character separator: the list of segments
between occurrences of `sep`; always non-empty. -/
def pySplit (sep : Char) : List Char → List (List Char)
  | [] => [[]]
  | c :: rest =>
    if c = sep then [] :: pySplit sep rest
    else
      match pySplit sep rest with
      | [] => [[c]]
      | seg :: segs => (c :: seg) :: segs

/-- `_deprel_label_filter_pred` from `src/src/task/eval/dep_rel.py`: lower-case both
labels; a filter containing `:` must match exactly, otherwise only the candidate's
main category (the segment before its first `:`) is compared. -/
def deprel_label_filter_pred (filter_label deprel : List Char) : Bool :=
  let filter_label := pyLower filter_label
  let deprel := pyLower deprel
  if filter_label.contains ':' then filter_label == deprel
  else filter_label == (pySplit ':' deprel).headD []

/-- A row of a `DEPREL_COLS`-format dataframe: the `(sent_id, word_id)` index, the
dependency label, and the head id. -/
structure DepRow where
  sent_id : ℕ
  word_id : ℕ
  deprel : List Char
  head : ℕ
deriving DecidableEq, Repr

/-- Python truthiness of the `filter_label` argument: `None` and `""` are falsy. -/
def labelTruthy : Option (List Char) → Bool
  | none => false
  | some s => !s.isEmpty

/-- A dependency tuple `(sent_id, word_id, deprel, head)`; the label is `none` for
the arity-3 unlabelled Python tuples. -/
abbrev DepTuple := ℕ × ℕ × Option (List Char) × ℕ

/-- The row filtering and set comprehension of `df_to_heads` (the part after the
configuration check). -/
def headsSet (df : List DepRow) (labelled : Bool) (filter_label : Option (List Char)) :
    Finset DepTuple :=
  let rows :=
    if labelTruthy filter_label then
      df.filter (fun row => deprel_label_filter_pred (filter_label.getD []) row.deprel)
    else df
  (rows.map (fun row =>
      if labelled then (row.sent_id, row.word_id, some (pyLower row.deprel), row.head)
      else (row.sent_id, row.word_id, none, row.head))).toFinset

/-- `df_to_heads` from `src/src/task/eval/dep_rel.py`: raises `ValueError` when
`labelled` is false and a (truthy) `filter_label` is supplied, before touching any
row; otherwise builds the set of dependency tuples. -/
def df_to_heads (df : List DepRow) (labelled : Bool)
    (filter_label : Option (List Char)) : Except PyError (Finset DepTuple) :=
  if !labelled && labelTruthy filter_label then
    .error (.valueError "Cannot set labelled to false and filter by label.")
  else
    .ok (headsSet df labelled filter_label)

/-- `df_to_labels` from `src/src/task/eval/dep_rel.py`. -/
def df_to_labels (df : List DepRow) : Finset (ℕ × ℕ × List Char) :=
  (df.map (fun row => (row.sent_id, row.word_id, pyLower row.deprel))).toFinset

/-- `df_get_label` from `src/src/task/eval/dep_rel.py`. -/
def df_get_label (df : List DepRow) (label : List Char) : Finset (ℕ × ℕ × List Char) :=
  let label := pyLower label
  ((df.filter (fun row => deprel_label_filter_pred label row.deprel)).map
      (fun row => (row.sent_id, row.word_id, pyLower row.deprel))).toFinset

/-- `DependencyRelationScore` named tuple: the three accuracies. -/
structure DependencyRelationScore where
  LAS : ℚ
  UAS : ℚ
  LS : ℚ
deriving DecidableEq, Repr

/-- `SpecificDepRelScore` named tuple: the filtered label and two `EvalScore`s. -/
structure SpecificDepRelScore where
  label : List Char
  LAS : EvalScore
  LS : EvalScore
deriving DecidableEq, Repr

/-- The two possible score records returned by `eval_dep_rel`. -/
inductive DepEvalResult where
  | full (score : DependencyRelationScore)
  | specific (score : SpecificDepRelScore)
deriving DecidableEq, Repr

/-- The scoring core of `eval_dep_rel` (`src/src/task/eval/dep_rel.py`, lines
123-150): everything after the parser produced `result` and the gold dataframe was
loaded, with the dataframes abstracted as row lists. -/
def eval_dep_rel_core (result gold : List DepRow)
    (filter_label : Option (List Char)) : Except PyError DepEvalResult := do
  let pred_labelled_heads ← df_to_heads result true filter_label
  let pred_unlabelled_heads ← df_to_heads result false none
  let gold_labelled_heads ← df_to_heads gold true filter_label
  let gold_unlabelled_heads ← df_to_heads gold false none
  if !(labelTruthy filter_label) then
    let pred_labels := df_to_labels result
    let gold_labels := df_to_labels gold
    let las ← Accuracy.from_sets pred_labelled_heads gold_labelled_heads
    let uas ← Accuracy.from_sets pred_unlabelled_heads gold_unlabelled_heads
    let ls ← Accuracy.from_sets pred_labels gold_labels
    return .full ⟨las, uas, ls⟩
  else
    let fl := filter_label.getD []
    let pred_labels := df_get_label result fl
    let gold_labels := df_get_label gold fl
    if pred_labelled_heads.card = 0 ∧ gold_labelled_heads.card = 0 then
      throw (.valueError "Label not found in either predicted or gold set.")
    else
      return .specific ⟨fl, EvalScore.from_sets pred_labelled_heads gold_labelled_heads,
        EvalScore.from_sets pred_labels gold_labels⟩

/-! ### Helper lemmas about `EvalScore.from_sets` -/

theorem from_sets_precision_eq {α : Type} [DecidableEq α] (s g : Finset α) :
    (EvalScore.from_sets s g).precision =
      if s.card = 0 then 0 else ((s ∩ g).card : ℚ) / (s.card : ℚ) := by
  simp only [EvalScore.from_sets]
  by_cases h : s.card = 0 <;> simp [h]

theorem from_sets_recall_eq {α : Type} [DecidableEq α] (s g : Finset α) :
    (EvalScore.from_sets s g).recall' =
      if g.card = 0 then 0 else ((s ∩ g).card : ℚ) / (g.card : ℚ) := by
  simp only [EvalScore.from_sets]
  by_cases h : g.card = 0 <;> simp [h]

theorem from_sets_precision_nonneg {α : Type} [DecidableEq α] (s g : Finset α) :
    0 ≤ (EvalScore.from_sets s g).precision := by
  rw [from_sets_precision_eq]
  split
  · exact le_refl 0
  · positivity

theorem from_sets_recall_nonneg {α : Type} [DecidableEq α] (s g : Finset α) :
    0 ≤ (EvalScore.from_sets s g).recall' := by
  rw [from_sets_recall_eq]
  split
  · exact le_refl 0
  · positivity

theorem from_sets_f1_eq {α : Type} [DecidableEq α] (s g : Finset α) :
    (EvalScore.from_sets s g).f1 =
      if (EvalScore.from_sets s g).precision + (EvalScore.from_sets s g).recall' = 0
      then 0
      else 2 * (EvalScore.from_sets s g).precision * (EvalScore.from_sets s g).recall' /
        ((EvalScore.from_sets s g).precision + (EvalScore.from_sets s g).recall') := by
  have h1 := from_sets_precision_nonneg s g
  have h2 := from_sets_recall_nonneg s g
  show (if 0 < (EvalScore.from_sets s g).precision + (EvalScore.from_sets s g).recall'
      then 2 * (EvalScore.from_sets s g).precision * (EvalScore.from_sets s g).recall' /
        ((EvalScore.from_sets s g).precision + (EvalScore.from_sets s g).recall')
      else 0) = _
  rcases eq_or_lt_of_le (add_nonneg h1 h2) with h | h
  · rw [if_neg (by rw [← h]; exact lt_irrefl 0), if_pos h.symm]
  · rw [if_pos h, if_neg (ne_of_gt h)]

/-! ### Claims about the set-comparison scorer -/

/-- **C1.** `EvalScore.from_sets` computes `precision = correct/|pred|` (`0` when
`|pred| = 0`), `recall = correct/|gold|` (`0` when `|gold| = 0`) and
`f1 = 2·p·r/(p+r)` (`0` when `p + r = 0`); it is a total function (never raises),
`from_sets ∅ ∅ = (0, 0, 0)`, and `from_sets S S = (1, 1, 1)` for every non-empty
`S`. -/
theorem EvalScore.from_sets_spec {α : Type} [DecidableEq α]
    (pred_set gold_set : Finset α) :
    (EvalScore.from_sets pred_set gold_set).precision =
      (if pred_set.card = 0 then 0 else
        ((pred_set ∩ gold_set).card : ℚ) / (pred_set.card : ℚ)) ∧
    (EvalScore.from_sets pred_set gold_set).recall' =
      (if gold_set.card = 0 then 0 else
        ((pred_set ∩ gold_set).card : ℚ) / (gold_set.card : ℚ)) ∧
    (EvalScore.from_sets pred_set gold_set).f1 =
      (if (EvalScore.from_sets pred_set gold_set).precision +
            (EvalScore.from_sets pred_set gold_set).recall' = 0 then 0 else
        2 * (EvalScore.from_sets pred_set gold_set).precision *
            (EvalScore.from_sets pred_set gold_set).recall' /
          ((EvalScore.from_sets pred_set gold_set).precision +
            (EvalScore.from_sets pred_set gold_set).recall')) ∧
    EvalScore.from_sets (∅ : Finset α) ∅ = ⟨0, 0, 0⟩ ∧
    (pred_set.Nonempty → EvalScore.from_sets pred_set pred_set = ⟨1, 1, 1⟩) := by
  refine ⟨from_sets_precision_eq _ _, from_sets_recall_eq _ _, from_sets_f1_eq _ _,
    by simp [EvalScore.from_sets], ?_⟩
  intro hS
  have h0 : pred_set.card ≠ 0 := hS.card_pos.ne'
  have hq : ((pred_set.card : ℚ)) ≠ 0 := Nat.cast_ne_zero.mpr h0
  have e1 : (EvalScore.from_sets pred_set pred_set).precision = 1 := by
    rw [from_sets_precision_eq, if_neg h0, Finset.inter_self, div_self hq]
  have e2 : (EvalScore.from_sets pred_set pred_set).recall' = 1 := by
    rw [from_sets_recall_eq, if_neg h0, Finset.inter_self, div_self hq]
  have e3 : (EvalScore.from_sets pred_set pred_set).f1 = 1 := by
    rw [from_sets_f1_eq, e1, e2]
    norm_num
  calc EvalScore.from_sets pred_set pred_set
      = ⟨(EvalScore.from_sets pred_set pred_set).precision,
          (EvalScore.from_sets pred_set pred_set).recall',
          (EvalScore.from_sets pred_set pred_set).f1⟩ := rfl
    _ = ⟨1, 1, 1⟩ := by rw [e1, e2, e3]

/-- Witness for the claim about `EvalScore.from_sets`, at the concrete non-empty set
`{1, 2}`. -/
theorem EvalScore.from_sets_spec_witness :
    EvalScore.from_sets ({1, 2} : Finset ℕ) {1, 2} = ⟨1, 1, 1⟩ :=
  (EvalScore.from_sets_spec ({1, 2} : Finset ℕ) {1, 2}).2.2.2.2 ⟨1, by decide⟩

/-- **C2 (counterexample).** At `pred_set = gold_set = ∅` the size check of
`Accuracy.from_sets` passes, yet no value is returned: the unguarded
`correct / pred` division raises `ZeroDivisionError`, so the claim that the call
returns `correct/|pred|` whenever the cardinalities agree fails. -/
theorem Accuracy.from_sets_empty_raises :
    Accuracy.from_sets (∅ : Finset ℕ) ∅ = .error .zeroDivisionError := by
  simp [Accuracy.from_sets]

/-- **C2 (amended).** `Accuracy.from_sets` raises the size-mismatch `ValueError` if
and only if `|pred_set| ≠ |gold_set|`, and when the cardinalities agree **and the
sets are non-empty** it returns `|pred_set ∩ gold_set| / |pred_set|`; at
`(∅, ∅)` it raises `ZeroDivisionError` instead of returning. -/
theorem Accuracy.from_sets_amended {α : Type} [DecidableEq α]
    (pred_set gold_set : Finset α) :
    ((∃ msg, Accuracy.from_sets pred_set gold_set = .error (.valueError msg)) ↔
      pred_set.card ≠ gold_set.card) ∧
    (pred_set.card = gold_set.card → pred_set.Nonempty →
      Accuracy.from_sets pred_set gold_set =
        .ok (((pred_set ∩ gold_set).card : ℚ) / (pred_set.card : ℚ))) := by
  by_cases hne : pred_set.card = gold_set.card
  · by_cases h0 : pred_set.card = 0
    · have hp : pred_set = ∅ := Finset.card_eq_zero.mp h0
      have hg : gold_set = ∅ := Finset.card_eq_zero.mp (hne ▸ h0)
      constructor
      · simp [Accuracy.from_sets, hp, hg]
      · intro _ hS
        exact absurd h0 hS.card_pos.ne'
    · have hg : ¬gold_set = ∅ := fun he => h0 (by rw [hne, he, Finset.card_empty])
      constructor
      · simp [Accuracy.from_sets, hne, h0, hg]
      · intro _ _
        simp [Accuracy.from_sets, hne, h0, hg]
  · constructor
    · simp [Accuracy.from_sets, hne]
    · intro h
      exact absurd h hne

/-- Witness for the amended claim about `Accuracy.from_sets`, at the equal-size
non-empty pair `({1}, {1})`. -/
theorem Accuracy.from_sets_amended_witness :
    Accuracy.from_sets ({1} : Finset ℕ) {1} =
      .ok (((({1} : Finset ℕ) ∩ {1}).card : ℚ) / ((({1} : Finset ℕ)).card : ℚ)) :=
  (Accuracy.from_sets_amended ({1} : Finset ℕ) {1}).2 rfl ⟨1, by decide⟩

/-- **C7.** Whenever `Accuracy.from_sets` returns a value `v` (so the two sets have
equal cardinality and the call did not raise), `0 ≤ v ≤ 1`, and `v = 1` exactly when
the two sets coincide. -/
theorem Accuracy.from_sets_bounds {α : Type} [DecidableEq α]
    (pred_set gold_set : Finset α) (v : ℚ)
    (h : Accuracy.from_sets pred_set gold_set = .ok v) :
    0 ≤ v ∧ v ≤ 1 ∧ (v = 1 ↔ pred_set = gold_set) := by
  by_cases hne : pred_set.card = gold_set.card
  · by_cases h0 : pred_set.card = 0
    · have hp : pred_set = ∅ := Finset.card_eq_zero.mp h0
      have hg : gold_set = ∅ := Finset.card_eq_zero.mp (hne ▸ h0)
      simp [Accuracy.from_sets, hp, hg] at h
    · have hg : ¬gold_set = ∅ := fun he => h0 (by rw [hne, he, Finset.card_empty])
      have hv : v = ((pred_set ∩ gold_set).card : ℚ) / (pred_set.card : ℚ) := by
        have := h
        simp [Accuracy.from_sets, hne, h0, hg] at this
        rw [hne]
        exact this.symm
      have hq : ((pred_set.card : ℚ)) ≠ 0 := Nat.cast_ne_zero.mpr h0
      have hqpos : (0 : ℚ) < (pred_set.card : ℚ) :=
        lt_of_le_of_ne (Nat.cast_nonneg _) (Ne.symm hq)
      have hle : (pred_set ∩ gold_set).card ≤ pred_set.card :=
        Finset.card_le_card Finset.inter_subset_left
      refine ⟨by rw [hv]; positivity, ?_, ?_⟩
      · rw [hv]
        rw [div_le_one hqpos]
        exact_mod_cast hle
      · constructor
        · intro h1
          rw [hv, div_eq_one_iff_eq hq] at h1
          have hc : (pred_set ∩ gold_set).card = pred_set.card := by exact_mod_cast h1
          have hinter : pred_set ∩ gold_set = pred_set :=
            Finset.eq_of_subset_of_card_le Finset.inter_subset_left (le_of_eq hc.symm)
          have hsubset : pred_set ⊆ gold_set := Finset.inter_eq_left.mp hinter
          exact Finset.eq_of_subset_of_card_le hsubset (le_of_eq hne.symm)
        · intro heq
          subst heq
          rw [hv, Finset.inter_self, div_self hq]
  · simp [Accuracy.from_sets, hne] at h

/-- Witness for the accuracy-bounds claim, at the concrete pair `({2}, {2})`. -/
theorem Accuracy.from_sets_bounds_witness :
    0 ≤ (1 : ℚ) ∧ (1 : ℚ) ≤ 1 ∧ ((1 : ℚ) = 1 ↔ ({2} : Finset ℕ) = {2}) :=
  Accuracy.from_sets_bounds ({2} : Finset ℕ) {2} 1 (by
    norm_num [Accuracy.from_sets])

/-- **C9.** At `pred_set = gold_set = ∅` the size check of `Accuracy.from_sets`
passes but the unguarded division raises `ZeroDivisionError`; in general the call
returns a value exactly when the cardinalities agree **and** the predicted set is
non-empty, so the size precondition alone is not sufficient. -/
theorem Accuracy.from_sets_needs_nonempty :
    Accuracy.from_sets (∅ : Finset ℕ) ∅ = .error .zeroDivisionError ∧
    ∀ (α : Type) (inst : DecidableEq α) (pred_set gold_set : Finset α),
      ((∃ v, @Accuracy.from_sets α inst pred_set gold_set = .ok v) ↔
        (pred_set.card = gold_set.card ∧ pred_set ≠ ∅)) := by
  refine ⟨by simp [Accuracy.from_sets], ?_⟩
  intro α inst pred_set gold_set
  by_cases hne : pred_set.card = gold_set.card
  · by_cases h0 : pred_set.card = 0
    · have hp : pred_set = ∅ := Finset.card_eq_zero.mp h0
      have hg : gold_set = ∅ := Finset.card_eq_zero.mp (hne ▸ h0)
      simp [Accuracy.from_sets, hp, hg]
    · have hg : ¬gold_set = ∅ := fun he => h0 (by rw [hne, he, Finset.card_empty])
      have hp : pred_set ≠ ∅ := fun he => h0 (by rw [he, Finset.card_empty])
      simp [Accuracy.from_sets, hne, h0, hg, hp]
  · simp [Accuracy.from_sets, hne]

/-- **C10 (counterexample).** On `pred_set = {1, 2}`, `gold_set = {1}` every revision
of `EvalScore.from_sets` returns, but the two legacy copies (which compute
`gold = len(pred_set)`) return `(1/2, 1/2, 1/2)` while the current revision returns
`(1/2, 1, 2/3)`: the revisions are not extensionally equal on their common domain. -/
theorem legacy_from_sets_counterexample :
    TaskEvalScore.from_sets ({1, 2} : Finset ℕ) {1} = .ok ⟨1/2, 1/2, 1/2⟩ ∧
    TaskEval.from_sets ({1, 2} : Finset ℕ) {1} = .ok ⟨1/2, 1/2, 1/2⟩ ∧
    EvalScore.from_sets ({1, 2} : Finset ℕ) {1} = ⟨1/2, 1, 2/3⟩ ∧
    (⟨1/2, 1/2, 1/2⟩ : EvalScore) ≠ ⟨1/2, 1, 2/3⟩ := by
  have hc : (({1, 2} : Finset ℕ) ∩ {1}) = {1} := by decide
  have h2 : (({1, 2} : Finset ℕ)).card = 2 := by decide
  refine ⟨?_, ?_, ?_, ?_⟩
  · norm_num [TaskEvalScore.from_sets, hc, h2, EvalScore.mk.injEq]
  · norm_num [TaskEval.from_sets, hc, h2, EvalScore.mk.injEq]
  · norm_num [EvalScore.from_sets, hc, h2, EvalScore.mk.injEq]
  · intro h
    have := congrArg EvalScore.recall' h
    norm_num at this

/-- **C10 (amended).** The two duplicated legacy revisions of `EvalScore.from_sets`
are extensionally equal to each other; both compute recall from `len(pred_set)` and
guard no division, so they agree with the current revision exactly on the inputs
where they return and where additionally `|pred_set| = |gold_set|`. -/
theorem legacy_from_sets_agree {α : Type} [DecidableEq α]
    (pred_set gold_set : Finset α) :
    TaskEval.from_sets pred_set gold_set = TaskEvalScore.from_sets pred_set gold_set ∧
    (pred_set.card = gold_set.card →
      ∀ s, TaskEvalScore.from_sets pred_set gold_set = .ok s →
        EvalScore.from_sets pred_set gold_set = s) := by
  refine ⟨rfl, ?_⟩
  intro hcard s hs
  simp only [TaskEvalScore.from_sets] at hs
  by_cases h0 : ((pred_set.card : ℚ)) = 0
  · rw [if_pos h0] at hs
    exact absurd hs (by simp)
  · rw [if_neg h0, if_neg h0] at hs
    set c : ℚ := ((pred_set ∩ gold_set).card : ℚ) with hcdef
    set n : ℚ := ((pred_set.card : ℚ)) with hndef
    by_cases hpr : c / n + c / n = 0
    · rw [if_pos hpr] at hs
      exact absurd hs (by simp)
    · rw [if_neg hpr] at hs
      have hs' : (⟨c / n, c / n, 2 * (c / n) * (c / n) / (c / n + c / n)⟩ : EvalScore) = s := by
        exact Except.ok.inj hs
      have h0n : pred_set.card ≠ 0 := fun he => h0 (by rw [hndef, he, Nat.cast_zero])
      have hgn : gold_set.card ≠ 0 := fun he => h0n (by rw [hcard, he])
      have e1 : (EvalScore.from_sets pred_set gold_set).precision = c / n := by
        rw [from_sets_precision_eq, if_neg h0n]
      have e2 : (EvalScore.from_sets pred_set gold_set).recall' = c / n := by
        rw [from_sets_recall_eq, if_neg hgn, hndef, hcard]
      have e3 : (EvalScore.from_sets pred_set gold_set).f1 =
          2 * (c / n) * (c / n) / (c / n + c / n) := by
        rw [from_sets_f1_eq, e1, e2, if_neg hpr]
      calc EvalScore.from_sets pred_set gold_set
          = ⟨(EvalScore.from_sets pred_set gold_set).precision,
              (EvalScore.from_sets pred_set gold_set).recall',
              (EvalScore.from_sets pred_set gold_set).f1⟩ := rfl
        _ = ⟨c / n, c / n, 2 * (c / n) * (c / n) / (c / n + c / n)⟩ := by rw [e1, e2, e3]
        _ = s := hs'

/-- Witness for the agreement of the legacy `from_sets` revisions with the current
one, at the equal-size pair `({1}, {1})`. -/
theorem legacy_from_sets_agree_witness :
    EvalScore.from_sets ({1} : Finset ℕ) {1} = ⟨1, 1, 1⟩ :=
  (legacy_from_sets_agree ({1} : Finset ℕ) {1}).2 rfl ⟨1, 1, 1⟩ (by
    norm_num [TaskEvalScore.from_sets, EvalScore.mk.injEq])

/-! ### Claims about the cross-bracket counter and the label filter -/

theorem unmatched_spans_eq_sdiff (gold_spans pred_spans : Finset CSpan) :
    pred_spans \ (gold_spans ∩ pred_spans) = pred_spans \ gold_spans := by
  ext u
  simp only [Finset.mem_sdiff, Finset.mem_inter]
  tauto

/-- **C3.** `cross_count G P` equals the number of spans of `P \ G` whose interval
strictly crosses at least one gold interval (`u₁ < g₁ < u₂ < g₂` or
`g₁ < u₁ < g₂ < u₂`, with labels ignored); thanks to the `break`, each unmatched
predicted span contributes at most one count; a boundary-touching pair never passes
the crossing test; and `cross_count S S = 0` for every `S`. -/
theorem cross_count_spec (gold_spans pred_spans : Finset CSpan) :
    cross_count gold_spans pred_spans =
      ((pred_spans \ gold_spans).filter (fun u => ∃ g ∈ gold_spans,
        (u.1 < g.1 ∧ g.1 < u.2.1 ∧ u.2.1 < g.2.1) ∨
        (g.1 < u.1 ∧ u.1 < g.2.1 ∧ g.2.1 < u.2.1))).card ∧
    (∀ u g : CSpan, u.2.1 = g.1 ∨ g.2.1 = u.1 → spanCrossesSpan u g = false) ∧
    cross_count gold_spans gold_spans = 0 := by
  refine ⟨?_, ?_, ?_⟩
  · unfold cross_count
    rw [unmatched_spans_eq_sdiff]
    dsimp only
    congr 1
    apply Finset.filter_congr
    intro u _
    constructor
    · rintro ⟨g, hg, hcross⟩
      refine ⟨g, hg, ?_⟩
      simp only [spanCrossesSpan, Bool.or_eq_true, Bool.and_eq_true,
        decide_eq_true_eq, gt_iff_lt] at hcross
      tauto
    · rintro ⟨g, hg, hcross⟩
      refine ⟨g, hg, ?_⟩
      simp only [spanCrossesSpan, Bool.or_eq_true, Bool.and_eq_true,
        decide_eq_true_eq, gt_iff_lt]
      tauto
  · intro u g h
    rw [Bool.eq_false_iff]
    intro htrue
    simp only [spanCrossesSpan, Bool.or_eq_true, Bool.and_eq_true,
      decide_eq_true_eq, gt_iff_lt] at htrue
    rcases h with h | h <;> omega
  · unfold cross_count
    rw [unmatched_spans_eq_sdiff, Finset.sdiff_self]
    simp

theorem pySplit_ne_nil (sep : Char) (l : List Char) : pySplit sep l ≠ [] := by
  induction l with
  | nil => simp [pySplit]
  | cons c rest ih =>
    simp only [pySplit]
    by_cases h : c = sep
    · simp [h]
    · simp only [if_neg h]
      cases hsplit : pySplit sep rest with
      | nil => simp
      | cons seg segs => simp

/-- The first segment of `pySplit sep l` is the longest `sep`-free front of `l`. -/
theorem pySplit_headD (sep : Char) (l : List Char) :
    (pySplit sep l).head?.getD [] = l.takeWhile (fun c => c != sep) := by
  induction l with
  | nil => rfl
  | cons c rest ih =>
    simp only [pySplit]
    by_cases h : c = sep
    · simp [h, List.takeWhile_cons]
    · simp only [if_neg h]
      have hb : (c != sep) = true := by simp [h]
      cases hsplit : pySplit sep rest with
      | nil => exact absurd hsplit (pySplit_ne_nil sep rest)
      | cons seg segs =>
        rw [hsplit] at ih
        simp only [List.head?_cons, Option.getD_some] at ih
        simp [List.takeWhile_cons, hb, ih]

/-- **C5.** `_deprel_label_filter_pred` lower-cases both labels; a filter containing
`:` matches exactly; a coarse filter matches the candidate's prefix before its first
`:`; hence filter `"nmod"` matches `"nmod"` and `"nmod:poss"` but not `"obl"`, and
`"obl:tmod"` matches `"obl:tmod"` but not `"obl:agent"`. -/
theorem deprel_label_filter_pred_spec :
    (∀ f c : List Char,
      (deprel_label_filter_pred f c = true ↔
        (if (pyLower f).contains ':' then pyLower f = pyLower c
         else pyLower f = (pyLower c).takeWhile (fun ch => ch != ':')))) ∧
    deprel_label_filter_pred "nmod".toList "nmod".toList = true ∧
    deprel_label_filter_pred "nmod".toList "nmod:poss".toList = true ∧
    deprel_label_filter_pred "nmod".toList "obl".toList = false ∧
    deprel_label_filter_pred "obl:tmod".toList "obl:tmod".toList = true ∧
    deprel_label_filter_pred "obl:tmod".toList "obl:agent".toList = false := by
  refine ⟨?_, by decide, by decide, by decide, by decide, by decide⟩
  intro f c
  unfold deprel_label_filter_pred
  by_cases h : ':' ∈ pyLower f
  · simp [h]
  · simp [h, pySplit_headD]

/-! ### Claims about the dependency evaluation entry points -/

/-- **C8.** `df_to_heads` with `labelled = false` and a supplied (truthy) filter
label fails with the configuration `ValueError` uniformly in the dataframe — the
error does not depend on the rows, so no row is inspected and no scoring happens. -/
theorem df_to_heads_unlabelled_filter_raises (df : List DepRow) (fl : List Char)
    (h : fl ≠ []) :
    df_to_heads df false (some fl) =
      .error (.valueError "Cannot set labelled to false and filter by label.") := by
  have ht : labelTruthy (some fl) = true := by
    simp [labelTruthy, h]
  simp [df_to_heads, ht]

/-- Witness for the unlabelled-plus-filter configuration error, on an empty
dataframe and the filter `"x"`. -/
theorem df_to_heads_unlabelled_filter_raises_witness :
    df_to_heads [] false (some ['x']) =
      .error (.valueError "Cannot set labelled to false and filter by label.") :=
  df_to_heads_unlabelled_filter_raises [] ['x'] (by decide)

/-- **C6.** With a (truthy) filter label, the scoring core of `eval_dep_rel` fails
with the `ValueError` exactly when the filtered labelled-head sets are empty on both
the predicted and the gold side, and otherwise returns the `SpecificDepRelScore`
holding `EvalScore.from_sets` over the filtered arc sets and over the filtered label
sets (instead of the three accuracies); on error no score record is produced. -/
theorem eval_dep_rel_filter_spec (result gold : List DepRow) (fl : List Char)
    (h : fl ≠ []) :
    (headsSet result true (some fl) = ∅ ∧ headsSet gold true (some fl) = ∅ →
      eval_dep_rel_core result gold (some fl) =
        .error (.valueError "Label not found in either predicted or gold set.")) ∧
    (¬(headsSet result true (some fl) = ∅ ∧ headsSet gold true (some fl) = ∅) →
      eval_dep_rel_core result gold (some fl) =
        .ok (.specific ⟨fl,
          EvalScore.from_sets (headsSet result true (some fl))
            (headsSet gold true (some fl)),
          EvalScore.from_sets (df_get_label result fl) (df_get_label gold fl)⟩)) := by
  have ht : labelTruthy (some fl) = true := by
    simp [labelTruthy, h]
  constructor
  · rintro ⟨h1, h2⟩
    simp [eval_dep_rel_core, df_to_heads, labelTruthy, ht, h, h1, h2,
      Except.instMonad, Except.bind, throw, throwThe, MonadExceptOf.throw,
      pure, Except.pure]
  · intro hne
    have hcard : ¬((headsSet result true (some fl)).card = 0 ∧
        (headsSet gold true (some fl)).card = 0) := by
      simpa [Finset.card_eq_zero] using hne
    simp [eval_dep_rel_core, df_to_heads, labelTruthy, ht, h, hcard,
      Except.instMonad, Except.bind, throw, throwThe, MonadExceptOf.throw,
      pure, Except.pure]
    exact fun ha hb => hne ⟨ha, hb⟩

set_option synthInstance.maxSize 512 in
/-- Witness for the filtered dependency evaluation, on a one-row predicted dataframe
labelled `"n"`, an empty gold dataframe and the filter `"n"`. -/
theorem eval_dep_rel_filter_spec_witness :
    eval_dep_rel_core [⟨1, 1, ['n'], 2⟩] [] (some ['n']) =
      .ok (.specific ⟨['n'],
        EvalScore.from_sets (headsSet [⟨1, 1, ['n'], 2⟩] true (some ['n']))
          (headsSet [] true (some ['n'])),
        EvalScore.from_sets (df_get_label [⟨1, 1, ['n'], 2⟩] ['n'])
          (df_get_label [] ['n'])⟩) :=
  (eval_dep_rel_filter_spec [⟨1, 1, ['n'], 2⟩] [] ['n'] (by decide)).2 (by decide)

/-! ### Claims about constituent extraction -/

theorem extractChildren_all_str (children : List (String ⊕ PTree))
    (h : children.all isStrChild = true) :
    ∀ s b, extractChildren children s b = ∅ := by
  induction children with
  | nil => intro s b; simp [extractChildren]
  | cons c rest ih =>
    intro s b
    cases c with
    | inl str =>
      simp only [List.all_cons, Bool.and_eq_true] at h
      simp only [extractChildren]
      exact ih h.2 s b
    | inr t =>
      simp [isStrChild] at h

theorem claimChildSpans_all_str (children : List (String ⊕ PTree))
    (h : children.all isStrChild = true) :
    ∀ s b, claimChildSpans children s b = ∅ := by
  induction children with
  | nil => intro s b; simp [claimChildSpans]
  | cons c rest ih =>
    intro s b
    cases c with
    | inl str =>
      simp only [List.all_cons, Bool.and_eq_true] at h
      simp only [claimChildSpans]
      exact ih h.2 (s + 1) b
    | inr t =>
      simp [isStrChild] at h

theorem childSpans_eq (children : List (String ⊕ PTree))
    (ihm : ∀ t, Sum.inr t ∈ children → PTree.separated t = true →
      ∀ s b, extract_constituents t s b = claimConstituentSpans t s b)
    (hsc : separatedChildren children = true) :
    ∀ s b, extractChildren children s b = claimChildSpans children s b := by
  induction children with
  | nil => intro s b; simp [extractChildren, claimChildSpans]
  | cons c rest ih =>
    intro s b
    cases c with
    | inl str =>
      simp only [separatedChildren] at hsc
      simp only [extractChildren, claimChildSpans]
      rw [extractChildren_all_str rest hsc, claimChildSpans_all_str rest hsc]
    | inr t =>
      simp only [separatedChildren, Bool.and_eq_true] at hsc
      simp only [extractChildren, claimChildSpans]
      rw [ihm t (by simp) hsc.1 s b,
        ih (fun t' ht' hsep' => ihm t' (by simp [ht']) hsep') hsc.2 _ b]

theorem extract_eq_claim_aux : ∀ (n : ℕ) (t : PTree), sizeOf t ≤ n →
    PTree.separated t = true →
    ∀ s b, extract_constituents t s b = claimConstituentSpans t s b := by
  intro n
  induction n with
  | zero =>
    intro t h
    cases t with
    | node lab ch =>
      simp only [PTree.node.sizeOf_spec] at h
      omega
  | succ n ih =>
    intro t ht hsep s b
    cases t with
    | node lab ch =>
      simp only [PTree.separated, Bool.and_eq_true] at hsep
      have hch : ∀ s', extractChildren ch s' b = claimChildSpans ch s' b := by
        intro s'
        apply childSpans_eq ch ?_ hsep.1
        intro t' ht' hsep'
        refine ih t' ?_ hsep'
        have h1 : sizeOf (Sum.inr t' : String ⊕ PTree) < sizeOf ch :=
          List.sizeOf_lt_of_mem ht'
        have h2 : sizeOf (Sum.inr t' : String ⊕ PTree) = 1 + sizeOf t' := by
          simp
        simp only [PTree.node.sizeOf_spec] at ht
        omega
      simp only [extract_constituents, claimConstituentSpans]
      rw [hch s]

theorem extractChildren_strict (children : List (String ⊕ PTree))
    (ihm : ∀ t, Sum.inr t ∈ children → PTree.separated t = true →
      ∀ s b u, u ∈ extract_constituents t s b → u.1 < u.2.1)
    (hsc : separatedChildren children = true) :
    ∀ s b u, u ∈ extractChildren children s b → u.1 < u.2.1 := by
  induction children with
  | nil =>
    intro s b u hu
    simp [extractChildren] at hu
  | cons c rest ih =>
    intro s b u hu
    cases c with
    | inl str =>
      simp only [separatedChildren] at hsc
      simp only [extractChildren] at hu
      rw [extractChildren_all_str rest hsc] at hu
      simp at hu
    | inr t =>
      simp only [separatedChildren, Bool.and_eq_true] at hsc
      simp only [extractChildren, Finset.mem_union] at hu
      rcases hu with hu | hu
      · exact ihm t (by simp) hsc.1 s b u hu
      · exact ih (fun t' ht' hsep' => ihm t' (by simp [ht']) hsep') hsc.2 _ b u hu

theorem extract_strict_aux : ∀ (n : ℕ) (t : PTree), sizeOf t ≤ n →
    PTree.separated t = true →
    ∀ s b u, u ∈ extract_constituents t s b → u.1 < u.2.1 := by
  intro n
  induction n with
  | zero =>
    intro t h
    cases t with
    | node lab ch =>
      simp only [PTree.node.sizeOf_spec] at h
      omega
  | succ n ih =>
    intro t ht hsep s b u hu
    cases t with
    | node lab ch =>
      simp only [PTree.separated, Bool.and_eq_true] at hsep
      simp only [extract_constituents] at hu
      by_cases hh : PTree.height (.node lab ch) > 1
      · rw [if_pos hh] at hu
        rcases Finset.mem_insert.mp hu with he | hmem
        · have hne : ch ≠ [] := by
            intro hnil
            subst hnil
            simp [PTree.height, childrenMaxHeight] at hh
          have hie : ch.isEmpty = false := by
            cases ch with
            | nil => exact absurd rfl hne
            | cons c' rest' => rfl
          have hor := hsep.2
          rw [hie] at hor
          simp only [Bool.false_or, Bool.not_eq_true'] at hor
          have hlen : 0 < (childrenLeaves ch).length := by
            cases hcl : childrenLeaves ch with
            | nil => rw [hcl] at hor; simp at hor
            | cons x xs => simp
          subst he
          simp only [PTree.leaves]
          omega
        · apply extractChildren_strict ch ?_ hsep.1 s b u hmem
          intro t' ht' hsep'
          refine ih t' ?_ hsep'
          have h1 : sizeOf (Sum.inr t' : String ⊕ PTree) < sizeOf ch :=
            List.sizeOf_lt_of_mem ht'
          have h2 : sizeOf (Sum.inr t' : String ⊕ PTree) = 1 + sizeOf t' := by
            simp
          simp only [PTree.node.sizeOf_spec] at ht
          omega
      · rw [if_neg hh] at hu
        simp at hu

/-- **C4 (counterexample).** The `continue` in the loop of `extract_constituents`
skips a string leaf child without advancing `start_index`, so on the mixed tree
`(S a (NP b))` the code emits `(0, 1, NP)` although `NP` is preceded by one leaf
(the claim requires `(1, 2, NP)`); and on `(S (NP))`, whose root covers no leaf, the
code emits the span `(0, 0, S)` with `start_offset = end_offset`. -/
theorem extract_constituents_counterexample :
    (0, 1, some "NP") ∈
      extract_constituents (.node "S" [.inl "a", .inr (.node "NP" [.inl "b"])]) 0 true ∧
    (1, 2, some "NP") ∉
      extract_constituents (.node "S" [.inl "a", .inr (.node "NP" [.inl "b"])]) 0 true ∧
    (0, 0, some "S") ∈ extract_constituents (.node "S" [.inr (.node "NP" [])]) 0 true := by
  refine ⟨?_, ?_, ?_⟩ <;>
    simp [extract_constituents, extractChildren, PTree.height, childrenMaxHeight,
      PTree.leaves, childrenLeaves]

/-- **C4 (amended).** For every tree in which no string leaf child precedes a
subtree child and every node that has children covers at least one leaf (true of
parse trees read from bracketed files, where strings occur only under
preterminals), `extract_constituents tree start_index labelled` is exactly the claim
set: every node of height `> 1` preceded by `o` leaves within the tree contributes
`(start_index + o, start_index + o + leaf_count, label?)`, children are visited
left to right, and every resulting span has `start_offset < end_offset`.  Without
that restriction the code does not advance the offset over string leaf children and
can emit empty spans. -/
theorem extract_constituents_spec (tree : PTree) (start_index : ℕ) (labelled : Bool)
    (h : PTree.separated tree = true) :
    extract_constituents tree start_index labelled =
      claimConstituentSpans tree start_index labelled ∧
    ∀ u ∈ extract_constituents tree start_index labelled, u.1 < u.2.1 :=
  ⟨extract_eq_claim_aux (sizeOf tree) tree le_rfl h start_index labelled,
   fun u hu => extract_strict_aux (sizeOf tree) tree le_rfl h start_index labelled u hu⟩

/-- Witness for the amended extraction claim, on the separated tree `(S (NP dog))`. -/
theorem extract_constituents_spec_witness :
    extract_constituents (.node "S" [.inr (.node "NP" [.inl "dog"])]) 0 true =
      claimConstituentSpans (.node "S" [.inr (.node "NP" [.inl "dog"])]) 0 true ∧
    ∀ u ∈ extract_constituents (.node "S" [.inr (.node "NP" [.inl "dog"])]) 0 true,
      u.1 < u.2.1 :=
  extract_constituents_spec (.node "S" [.inr (.node "NP" [.inl "dog"])]) 0 true (by
    simp [PTree.separated, separatedChildren, isStrChild, childrenLeaves, PTree.leaves])
